import Mathlib

/-!
Shallow embedding of the cordbun request-dispatch core:
`src/rest/bucket.ts` (bucket manager, route-key derivation),
`src/rest/client.ts` (dispatcher: validation, body building, retry loop) and
`src/rest/types.ts` (error and data shapes).

Conventions: JS numbers that hold integral millisecond instants or counts are
embedded as `Int`; configuration numbers whose integrality the code tests with
`Number.isInteger` are embedded as `Rat`; JS `Map`s are embedded as functions
to `Option`; a thrown error is an explicit result constructor.
-/

namespace Cordbun

/-- `RateLimitBucket` as stored by `bucket.ts`: quota snapshot plus the
nullable `processing` settle promise, whose identity is abstracted as a
numeric token (`Option Nat`). -/
structure RateLimitBucket where
  limit : Int
  remaining : Int
  reset : Int
  processing : Option Nat
deriving DecidableEq

/-- `RateLimitData` from `types.ts`: parsed rate-limit response headers.
`bucket` is a non-optional string (`parseRateLimitHeaders` substitutes `""`
for a missing `X-RateLimit-Bucket` header). -/
structure RateLimitData where
  limit : Int
  remaining : Int
  reset : Int
  resetAfter : Int
  bucket : String
  global : Bool
  scope : Option String
deriving DecidableEq

/-- State owned by `createBucketManager` in `bucket.ts`: the two closure-local
`Map`s and the `globalReset` variable. -/
structure BucketManagerState where
  buckets : String → Option RateLimitBucket
  bucketKeys : String → Option String
  globalReset : Int

/-- Initial state of `createBucketManager`: empty maps, `globalReset = 0`. -/
def createBucketManager : BucketManagerState :=
  { buckets := fun _ => none, bucketKeys := fun _ => none, globalReset := 0 }

/-- `get` from `bucket.ts`: look up through the learned server-hash
indirection (`bucketKeys.get(key) ?? key`). -/
def get (st : BucketManagerState) (key : String) : Option RateLimitBucket :=
  let bucketKey := (st.bucketKeys key).getD key
  st.buckets bucketKey

/-- `set` from `bucket.ts`. -/
def set (st : BucketManagerState) (key : String) (bucket : RateLimitBucket) :
    BucketManagerState :=
  { st with buckets := fun k => if k = key then some bucket else st.buckets k }

/-- `update` from `bucket.ts`. `if (data.bucket)` is string truthiness, hence
the `data.bucket ≠ ""` guard; `data.bucket ?? key` never takes the `key`
fallback because `data.bucket` is a non-nullish string (including `""`), so
`bucketKey` is `data.bucket` unconditionally. `reset` is converted from epoch
seconds to an absolute millisecond instant. -/
def update (st : BucketManagerState) (key : String) (data : RateLimitData) :
    BucketManagerState :=
  let bucketKeys' : String → Option String :=
    if data.bucket ≠ "" then
      fun k => if k = key then some data.bucket else st.bucketKeys k
    else st.bucketKeys
  let bucketKey := data.bucket
  let existing := st.buckets bucketKey
  { st with
    bucketKeys := bucketKeys'
    buckets := fun k =>
      if k = bucketKey then
        some { limit := data.limit
               remaining := data.remaining
               reset := data.reset * 1000
               processing := match existing with
                 | some b => b.processing
                 | none => none }
      else st.buckets k }

/-- `getDelay` from `bucket.ts`, with `Date.now()` passed explicitly as
`now`. -/
def getDelay (st : BucketManagerState) (key : String) (now : Int) : Int :=
  if st.globalReset > now then st.globalReset - now
  else
    match get st key with
    | none => 0
    | some bucket =>
        if bucket.remaining ≤ 0 ∧ bucket.reset > now then bucket.reset - now
        else 0

/-- `isLimited` from `bucket.ts`. -/
def isLimited (st : BucketManagerState) (key : String) (now : Int) : Bool :=
  getDelay st key now > 0

/-- `setGlobalReset` from `bucket.ts`: a plain assignment. -/
def setGlobalReset (st : BucketManagerState) (reset : Int) : BucketManagerState :=
  { st with globalReset := reset }

/-! ### Route key derivation (`getRouteKey` in `bucket.ts`)

A route is embedded as its list of path segments: the path string is
`"/" ++ s₀ ++ "/" ++ s₁ ++ ...` where each segment is slash-free.  On such
strings the two regexes of the source act segment-wise:
`/\/(channels|guilds|webhooks)\/(\d+)/` matches at the first segment equal to
one of the three roots whose successor segment starts with a digit, capturing
that successor's maximal leading digit run (every occurrence of
`"/channels/"` in a slash-separated path is a whole segment, and `\d+` after
the second slash is anchored at the successor's start); the global replace
`route.replace(/\/\d+/g, "/:id")` rewrites, in every segment that starts
with a digit, its maximal leading digit run to `:id`. -/

/-- The three major-resource roots of the regex alternation. -/
def majorRoots : List String := ["channels", "guilds", "webhooks"]

/-- Maximal leading digit run of a segment (the capture of `\d+` anchored
at the segment start). -/
def leadingDigits (s : String) : String :=
  String.mk (s.toList.takeWhile Char.isDigit)

/-- Whether `\d+` can match at the start of the segment. -/
def startsWithDigit (s : String) : Bool :=
  match s.toList with
  | c :: _ => c.isDigit
  | [] => false

/-- First match of `/\/(channels|guilds|webhooks)\/(\d+)/` over the segment
list; returns capture group 2 (`majorParams?.[2]`). -/
def findMajorId : List String → Option String
  | a :: b :: rest =>
      if a ∈ majorRoots ∧ startsWithDigit b then some (leadingDigits b)
      else findMajorId (b :: rest)
  | _ => none

/-- Image of one segment under the global replace of `/\d+` by `/:id`. -/
def stripId (s : String) : String :=
  if startsWithDigit s then ":id" ++ String.mk (s.toList.dropWhile Char.isDigit)
  else s

/-- `getRouteKey` from `bucket.ts` on the segment representation:
`` `${method}:${routeWithoutIds}:${majorId}` `` with `majorId` defaulting to
`""` when the major regex does not match. -/
def getRouteKey (method : String) (segments : List String) : String :=
  let majorId := (findMajorId segments).getD ""
  let routeWithoutIds := String.join ((segments.map stripId).map (fun s => "/" ++ s))
  method ++ ":" ++ routeWithoutIds ++ ":" ++ majorId

/-- A purely numeric, nonempty path segment (e.g. a snowflake id). -/
def isNumericSeg (s : String) : Bool :=
  !s.toList.isEmpty && s.toList.all Char.isDigit

/-! ### Client option validation (`validateOptions` / `createRest` in `client.ts`) -/

/-- `RestOptions` from `types.ts`: every field optional.  The numeric fields
are embedded as `Rat` so that the `Number.isInteger` tests of
`validateOptions` are meaningful. -/
structure RestOptions where
  authType : Option String
  version : Option Rat
  retries : Option Rat
  timeout : Option Rat
  userAgent : Option String
deriving DecidableEq

/-- `VALID_AUTH_TYPES` from `client.ts`. -/
def VALID_AUTH_TYPES : List String := ["Bot", "Bearer"]

/-- `VALID_API_VERSIONS` from `client.ts`: the numeric values of the
`ApiVersion` enum in `constants/api.ts`. -/
def VALID_API_VERSIONS : List Rat := [6, 7, 8, 9, 10]

/-- `Number.isInteger` on the rational embedding of a JS number. -/
def isInteger (q : Rat) : Bool := q.den = 1

/-- JS `String.prototype.trim`: strip leading and trailing whitespace. -/
def jsTrim (s : String) : String :=
  String.mk (((s.toList.dropWhile Char.isWhitespace).reverse.dropWhile
    Char.isWhitespace).reverse)

/-- The `authType` check of `validateOptions`:
`options.authType !== undefined && !VALID_AUTH_TYPES.includes(...)`. -/
def badAuthType (o : RestOptions) : Bool :=
  o.authType.elim false (fun a => decide (a ∉ VALID_AUTH_TYPES))

/-- The `version` check of `validateOptions`:
`!Number.isInteger(v) || !VALID_API_VERSIONS.includes(v)`. -/
def badVersion (o : RestOptions) : Bool :=
  o.version.elim false (fun v => !(isInteger v && decide (v ∈ VALID_API_VERSIONS)))

/-- The `retries` check of `validateOptions`:
`!Number.isInteger(r) || r < 0`. -/
def badRetries (o : RestOptions) : Bool :=
  o.retries.elim false (fun r => !(isInteger r && decide (0 ≤ r)))

/-- The `timeout` check of `validateOptions`: `typeof t !== "number"` holds
by construction here, leaving `t <= 0`. -/
def badTimeout (o : RestOptions) : Bool :=
  o.timeout.elim false (fun t => !decide (0 < t))

/-- The `userAgent` check of `validateOptions`: `typeof u !== "string"`
holds by construction here, leaving `u.trim() === ""`. -/
def badUserAgent (o : RestOptions) : Bool :=
  o.userAgent.elim false (fun u => decide (jsTrim u = ""))

/-- `validateOptions` from `client.ts`: the first failing check throws a
`TypeError`. -/
def validateOptions (o : RestOptions) : Except String Unit :=
  if badAuthType o then .error "Invalid authType"
  else if badVersion o then .error "Invalid version"
  else if badRetries o then .error "Invalid retries"
  else if badTimeout o then .error "Invalid timeout"
  else if badUserAgent o then .error "Invalid userAgent"
  else .ok ()

/-- The configuration produced by `createRest`: `DEFAULT_OPTIONS` overridden
by the supplied fields (`{ ...DEFAULT_OPTIONS, ...options }`).  `userAgent`
has no entry in `DEFAULT_OPTIONS`; it stays optional. -/
structure RestConfig where
  authType : String
  version : Rat
  retries : Rat
  timeout : Rat
  userAgent : Option String
deriving DecidableEq

/-- The construction step of `createRest` in `client.ts`: validate, then merge
the options over the defaults (`authType "Bot"`, `version 10`, `retries 3`,
`timeout 15000`).  No network activity is modelled because the source
performs none during construction. -/
def createRest (o : RestOptions) : Except String RestConfig :=
  match validateOptions o with
  | .error e => .error e
  | .ok _ =>
      .ok { authType := o.authType.getD "Bot"
            version := o.version.getD 10
            retries := o.retries.getD 3
            timeout := o.timeout.getD 15000
            userAgent := o.userAgent }

/-- The claim's notion of a malformed configuration, following the spec's
words only (auth scheme outside the two variants, version outside the fixed
set, retries negative or non-integer, timeout not a positive number) — to be
compared with `validateOptions` from the source. -/
def claimMalformed (o : RestOptions) : Bool :=
  badAuthType o || badVersion o || badRetries o || badTimeout o

/-! ### Dispatcher (`request` in `client.ts`)

The retry loop of `request` is embedded as a function of the per-attempt
transfer outcomes (`outcomes i` is what the `i`-th `fetch` yields; the remote
server is an oracle).  The tracker side effects of an attempt
(`buckets.update`, `buckets.setGlobalReset` on a global 429, the `acquire`
wait) commute with the classification and are verified separately on the
tracker definitions above; the loop model records the classification, the
retry decisions, the backoff sleeps performed by the `catch` block and the
number of transfers attempted. -/

/-- `FileData` from `types.ts`; the attachment's payload is abstracted to
its byte size, which is all `createFileAttachment`'s ceiling check reads. -/
structure FileData where
  name : String
  size : Int
  contentType : Option String
deriving DecidableEq

/-- Modelled from the spec: `createFileAttachment` (imported by `client.ts`
from `../utils/index.js`, whose implementation is not under `src/`) validates
each attachment against the known size ceiling and throws
`FileTooLargeError(name, size, ceiling)` — the class declared in `types.ts` —
for an oversize file.  `buildBody` maps it over `opts.files` in order, so the
first oversize file's error is the one thrown. -/
def firstOversize (ceiling : Int) : List FileData → Option FileData
  | [] => none
  | f :: fs => if f.size > ceiling then some f else firstOversize ceiling fs

/-- What one `fetch` yields: either a response (status, parsed rate-limit
headers, and — read only on a 429 — the body's `retry_after` seconds and
`global` flag), or an abort because the `config.timeout` timer fired first. -/
inductive FetchResult where
  | response (status : Nat) (rateLimit : Option RateLimitData)
      (retryAfter : Int) (globalFlag : Bool)
  | aborted
deriving DecidableEq

/-- Terminal result of one `request` call: a returned `RestResponse` or the
thrown error, as a closed union of the error classes in `types.ts`.
`errTimeout` mirrors the `TimeoutError` class declared there. -/
inductive ReqResult where
  | success (status : Nat) (rateLimit : Option RateLimitData)
  | errRateLimit (retryAfter : Int) (globalFlag : Bool) (scope : Option String)
  | errRest (status : Nat)
  | errPayloadTooLarge (name : String) (size : Int) (ceiling : Int)
  | errAbort
  | errTimeout (timeout : Int)
deriving DecidableEq

/-- Observable outcome of a `request` call: terminal result, the backoff
sleeps of the `catch` block in order (milliseconds), and how many transfers
were attempted. -/
structure RequestOutcome where
  result : ReqResult
  sleeps : List Int
  fetches : Nat
deriving DecidableEq

/-- The `try`/`catch` retry loop of `request` (client.ts 211–274).  The guard
`retryCount < config.retries` is represented by the remaining budget
`budget = retries - retryCount`, positive exactly when the guard holds, so
the recursion is structural.  Classification order follows the `try` block:
429 throws `RateLimitError` (re-submitted after `retry_after * 1000` ms while
budget remains), 204 and every other `response.ok` status return, any other
status throws `RestError(status, …)` (re-submitted after the linear backoff
`1000 * (retryCount + 1)` ms while budget remains and `status ≥ 500`).  An
aborted transfer rejects with the abort error, which is neither a
`RateLimitError` nor a `RestError`, so the `catch` block rethrows it
unchanged. -/
def requestGo (outcomes : Nat → FetchResult) : Nat → Nat → RequestOutcome
  | budget, retryCount =>
    match outcomes retryCount with
    | .aborted => ⟨.errAbort, [], 1⟩
    | .response status rateLimit retryAfter globalFlag =>
        if status = 429 then
          match budget with
          | b + 1 =>
              let rest := requestGo outcomes b (retryCount + 1)
              ⟨rest.result, retryAfter * 1000 :: rest.sleeps, rest.fetches + 1⟩
          | 0 => ⟨.errRateLimit retryAfter globalFlag
                    (rateLimit.bind (fun d => d.scope)), [], 1⟩
        else if status = 204 then ⟨.success status rateLimit, [], 1⟩
        else if 200 ≤ status ∧ status < 300 then ⟨.success status rateLimit, [], 1⟩
        else
          match budget with
          | b + 1 =>
              if 500 ≤ status then
                let rest := requestGo outcomes b (retryCount + 1)
                ⟨rest.result, 1000 * ((retryCount : Int) + 1) :: rest.sleeps,
                  rest.fetches + 1⟩
              else ⟨.errRest status, [], 1⟩
          | 0 => ⟨.errRest status, [], 1⟩

/-- One `request` call: `buildBody` runs before the `try` block, so an
oversize attachment's `FileTooLargeError` propagates before any `fetch`;
otherwise the retry loop starts with the full budget `config.retries` at
`retryCount = 0`. -/
def dispatch (retries : Nat) (ceiling : Int) (files : List FileData)
    (outcomes : Nat → FetchResult) : RequestOutcome :=
  match firstOversize ceiling files with
  | some f => ⟨.errPayloadTooLarge f.name f.size ceiling, [], 0⟩
  | none => requestGo outcomes retries 0

/-! ## Theorems -/

/-- C2 (counterexample): `setGlobalReset` is not monotonic — starting from a
global deadline of 100, `setGlobalReset 50` stores 50, not `max 100 50`. -/
theorem setGlobalReset_lowering_counterexample :
    (setGlobalReset (setGlobalReset createBucketManager 100) 50).globalReset = 50 ∧
    (setGlobalReset (setGlobalReset createBucketManager 100) 50).globalReset ≠ max 100 50 := by
  exact ⟨rfl, by decide⟩

/-- C2 (amended): `setGlobalReset(u)` stores exactly its argument,
overwriting the previous global deadline; monotonicity is a caller
obligation, not enforced by the tracker. -/
theorem setGlobalReset_overwrites (st : BucketManagerState) (u : Int) :
    (setGlobalReset st u).globalReset = u := rfl

/-- C1: at the failing input — a snapshot whose server bucket hash is the
empty string — `update` stores the recorded limit/remaining/reset (reset
converted to absolute milliseconds) under the key `""` instead of the route
key, records no hash association, and a subsequent `get` for the route key
returns nothing: the claimed retrieval fails. -/
theorem update_emptyHash_divergence :
    get (update createBucketManager "GET:/channels/:id/messages/:id:111"
        ⟨5, 4, 100, 0, "", false, none⟩) "GET:/channels/:id/messages/:id:111" = none ∧
    (update createBucketManager "GET:/channels/:id/messages/:id:111"
        ⟨5, 4, 100, 0, "", false, none⟩).buckets "" = some ⟨5, 4, 100000, none⟩ := by
  exact ⟨by decide, by decide⟩

/-- C9: `update` is idempotent — applying the same snapshot twice in
succession leaves the bucket map, the hash map and the global deadline in
exactly the state one application produces. -/
theorem update_idempotent (st : BucketManagerState) (key : String)
    (data : RateLimitData) :
    update (update st key data) key data = update st key data := by
  cases st with
  | mk buckets bucketKeys globalReset =>
    simp only [update, BucketManagerState.mk.injEq]
    refine ⟨?_, ?_, trivial⟩
    · funext x
      by_cases hx : x = data.bucket <;> simp [hx]
    · by_cases hb : data.bucket ≠ "" <;> simp [hb]
      funext x
      by_cases hx : x = key <;> simp [hx]

/-- C10: `getDelay` never reports a negative wait, for every tracker state,
route key and clock value. -/
theorem getDelay_nonneg (st : BucketManagerState) (key : String) (now : Int) :
    0 ≤ getDelay st key now := by
  unfold getDelay
  by_cases hg : st.globalReset > now
  · simp [hg]; omega
  · simp [hg]
    cases get st key with
    | none => simp
    | some b =>
        by_cases hb : b.remaining ≤ 0 ∧ b.reset > now <;> simp [hb]
        omega

/-- C6: case analysis of `getDelay`: the global deadline, when in the
future, is checked first and its remaining time returned; otherwise a
missing bucket imposes zero delay; otherwise an exhausted bucket whose reset
lies in the future imposes `reset - now`; otherwise zero (an elapsed reset
imposes no delay even without a fresh update). -/
theorem getDelay_cases (st : BucketManagerState) (key : String) (now : Int) :
    (now < st.globalReset → getDelay st key now = st.globalReset - now) ∧
    (st.globalReset ≤ now → get st key = none → getDelay st key now = 0) ∧
    (∀ b, st.globalReset ≤ now → get st key = some b → b.remaining ≤ 0 →
      now < b.reset → getDelay st key now = b.reset - now) ∧
    (∀ b, st.globalReset ≤ now → get st key = some b →
      ¬(b.remaining ≤ 0 ∧ now < b.reset) → getDelay st key now = 0) := by
  refine ⟨fun h => ?_, fun h hn => ?_, fun b h hb hr hf => ?_, fun b h hb hnot => ?_⟩
  · simp [getDelay, h]
  · simp [getDelay, show ¬(st.globalReset > now) by omega, hn]
  · simp [getDelay, show ¬(st.globalReset > now) by omega, hb, hr, hf]
  · have : ¬(b.remaining ≤ 0 ∧ b.reset > now) := fun ⟨h1, h2⟩ => hnot ⟨h1, h2⟩
    simp [getDelay, show ¬(st.globalReset > now) by omega, hb, this]

/-- C6 witness: the four cases of `getDelay_cases` evaluated at concrete
tracker states. -/
theorem getDelay_cases_witness :
    ((0 : Int) < 100 ∧
      getDelay (setGlobalReset createBucketManager 100) "k" 0 = 100 - 0) ∧
    (getDelay createBucketManager "k" 5 = 0) ∧
    (getDelay (set createBucketManager "k" ⟨5, 0, 10, none⟩) "k" 5 = 10 - 5) ∧
    (getDelay (set createBucketManager "k" ⟨5, 3, 10, none⟩) "k" 5 = 0) := by
  refine ⟨⟨by decide, ?_⟩, ?_, ?_, ?_⟩
  · exact (getDelay_cases (setGlobalReset createBucketManager 100) "k" 0).1 (by decide)
  · exact (getDelay_cases createBucketManager "k" 5).2.1 (by decide) (by decide)
  · exact (getDelay_cases (set createBucketManager "k" ⟨5, 0, 10, none⟩) "k" 5).2.2.1
      ⟨5, 0, 10, none⟩ (by decide) (by decide) (by decide) (by decide)
  · exact (getDelay_cases (set createBucketManager "k" ⟨5, 3, 10, none⟩) "k" 5).2.2.2
      ⟨5, 3, 10, none⟩ (by decide) (by decide) (by decide)

/-- Helper: under uniformly 5xx responses the retry loop, started at any
attempt index with any remaining budget, sleeps the linear backoffs
`1000 * (attempt + 1)` for each retried attempt and surfaces the last
failure's status. -/
theorem requestGo_serverError_aux (s : Nat → Nat) (hs : ∀ i, 500 ≤ s i) :
    ∀ (b t : Nat),
      requestGo (fun i => FetchResult.response (s i) none 0 false) b t =
        ⟨.errRest (s (t + b)),
          (List.range' t b).map (fun i => 1000 * ((i : Int) + 1)), b + 1⟩ := by
  intro b
  induction b with
  | zero =>
      intro t
      have h1 : ¬s t = 429 := by have := hs t; omega
      have h2 : ¬s t = 204 := by have := hs t; omega
      have h3 : ¬(200 ≤ s t ∧ s t < 300) := by have := hs t; omega
      simp [requestGo, h1, h2, h3]
  | succ b ih =>
      intro t
      have h1 : ¬s t = 429 := by have := hs t; omega
      have h2 : ¬s t = 204 := by have := hs t; omega
      have h3 : ¬(200 ≤ s t ∧ s t < 300) := by have := hs t; omega
      have h4 : 500 ≤ s t := hs t
      have ht : t + 1 + b = t + (b + 1) := by omega
      simp [requestGo, h1, h2, h3, h4, ih (t + 1), List.range'_succ, ht]

/-- C7: under persistent server errors (every attempt's status ≥ 500), each
retry waits the linear backoff `attempt number × 1000 ms` — so consecutive
backoffs strictly increase — the loop stops once the retry budget is
consumed (`retries + 1` transfers), and the call surfaces the last 5xx
failure's status as a `RestError`, not a generic retries-exhausted error. -/
theorem request_serverError_linearBackoff (retries : Nat) (s : Nat → Nat)
    (hs : ∀ i, 500 ≤ s i) :
    dispatch retries 0 [] (fun i => FetchResult.response (s i) none 0 false) =
      ⟨.errRest (s retries),
        (List.range retries).map (fun i => 1000 * ((i : Int) + 1)), retries + 1⟩ ∧
    (∀ (i j : Nat), i < j → (1000 : Int) * ((i : Int) + 1) < 1000 * ((j : Int) + 1)) := by
  constructor
  · have h := requestGo_serverError_aux s hs retries 0
    simpa [dispatch, firstOversize, List.range_eq_range'] using h
  · intro i j hij
    have : (i : Int) < (j : Int) := by exact_mod_cast hij
    omega

/-- C7 witness: two retries against a server that always answers 500. -/
theorem request_serverError_linearBackoff_witness :
    dispatch 2 0 [] (fun _ => FetchResult.response 500 none 0 false) =
      ⟨.errRest 500, [1000, 2000], 3⟩ := by
  have h := (request_serverError_linearBackoff 2 (fun _ => 500) (fun _ => le_refl 500)).1
  rw [h]
  decide

/-- C4: a timed-out transfer is surfaced immediately: the abort rejection is
rethrown unchanged by the `catch` block (it is neither a `RateLimitError`
nor a `RestError`), no re-submission happens regardless of the remaining
retry budget, and the surfaced error is not the `TimeoutError` declared in
`types.ts` — the configured timeout value is not attached. -/
theorem request_timeout_not_wrapped (retries : Nat) (ceiling : Int)
    (outcomes : Nat → FetchResult) (h : outcomes 0 = FetchResult.aborted) :
    dispatch retries ceiling [] outcomes = ⟨.errAbort, [], 1⟩ ∧
    ∀ t, (dispatch retries ceiling [] outcomes).result ≠ .errTimeout t := by
  have hd : dispatch retries ceiling [] outcomes = ⟨.errAbort, [], 1⟩ := by
    simp [dispatch, firstOversize, requestGo, h]
  exact ⟨hd, fun t => by simp [hd]⟩

/-- C4 witness: a three-retry budget with the first transfer aborted. -/
theorem request_timeout_not_wrapped_witness :
    (fun _ : Nat => FetchResult.aborted) 0 = FetchResult.aborted ∧
    dispatch 3 0 [] (fun _ => FetchResult.aborted) = ⟨.errAbort, [], 1⟩ :=
  ⟨rfl, (request_timeout_not_wrapped 3 0 (fun _ => FetchResult.aborted) rfl).1⟩

/-- Helper: when some attachment exceeds the ceiling, `firstOversize` finds
an oversize member of the list. -/
theorem firstOversize_isSome (ceiling : Int) (files : List FileData)
    (h : ∃ f ∈ files, ceiling < f.size) :
    ∃ f, firstOversize ceiling files = some f ∧ f ∈ files ∧ ceiling < f.size := by
  induction files with
  | nil => obtain ⟨f, hf, _⟩ := h; cases hf
  | cons a fs ih =>
      by_cases ha : a.size > ceiling
      · exact ⟨a, by simp [firstOversize, ha], by simp, ha⟩
      · obtain ⟨f, hf, hs⟩ := h
        have hf2 : f ∈ fs := by
          cases hf with
          | head => exact absurd hs (by simpa using ha)
          | tail _ hm => exact hm
        obtain ⟨f2, h1, h2, h3⟩ := ih ⟨f, hf2, hs⟩
        exact ⟨f2, by simp [firstOversize, ha, h1], List.Mem.tail _ h2, h3⟩

/-- C3: a request whose attachments include a file above the size ceiling
fails with `FileTooLargeError` carrying that file's name, its size and the
ceiling, before any transfer is attempted — zero fetches occur. -/
theorem dispatch_oversizeFile_noFetch (retries : Nat) (ceiling : Int)
    (files : List FileData) (outcomes : Nat → FetchResult)
    (h : ∃ f ∈ files, ceiling < f.size) :
    ∃ f ∈ files, ceiling < f.size ∧
      dispatch retries ceiling files outcomes =
        ⟨.errPayloadTooLarge f.name f.size ceiling, [], 0⟩ := by
  obtain ⟨f, hf, hmem, hsz⟩ := firstOversize_isSome ceiling files h
  exact ⟨f, hmem, hsz, by simp [dispatch, hf]⟩

/-- C3 witness: a 100-byte attachment against a 50-byte ceiling. -/
theorem dispatch_oversizeFile_noFetch_witness :
    (∃ f ∈ [FileData.mk "big.png" 100 none], (50 : Int) < f.size) ∧
    ∃ f ∈ [FileData.mk "big.png" 100 none], (50 : Int) < f.size ∧
      dispatch 3 50 [FileData.mk "big.png" 100 none] (fun _ => FetchResult.aborted) =
        ⟨.errPayloadTooLarge f.name f.size 50, [], 0⟩ :=
  ⟨⟨FileData.mk "big.png" 100 none, by simp, by decide⟩,
    dispatch_oversizeFile_noFetch 3 50 [FileData.mk "big.png" 100 none]
      (fun _ => FetchResult.aborted)
      ⟨FileData.mk "big.png" 100 none, by simp, by decide⟩⟩

/-- Helper: `createRest` succeeds exactly when `validateOptions` does. -/
theorem createRest_ok_iff (o : RestOptions) :
    (∃ c, createRest o = .ok c) ↔ validateOptions o = .ok () := by
  unfold createRest
  cases hv : validateOptions o with
  | error e => simp
  | ok u => cases u; simp

/-- C8 (counterexample): an options record whose only supplied field is
`userAgent = ""` is rejected by `validateOptions`, yet none of the claim's
malformedness conditions (auth scheme, version, retries, timeout) holds —
the claimed "fails if and only if" is false. -/
theorem validateOptions_userAgent_counterexample :
    validateOptions ⟨none, none, none, none, some ""⟩ = .error "Invalid userAgent" ∧
    claimMalformed ⟨none, none, none, none, some ""⟩ = false := by
  constructor
  · rfl
  · rfl

/-- Helper: `badUserAgent` is false exactly when the supplied user-agent, if
any, does not trim to the empty string. -/
theorem badUserAgent_eq_false_iff (o : RestOptions) :
    badUserAgent o = false ↔ o.userAgent.elim True (fun u => ¬jsTrim u = "") := by
  unfold badUserAgent
  cases o.userAgent <;> simp

/-- C8 (amended): construction fails fast with a descriptive validation
error, before any network activity, if and only if the options are
malformed — where malformed is the claim's list (bad auth scheme, version
outside the fixed set, negative or non-integer retries, non-positive
timeout) extended with a supplied user-agent string that trims to empty —
and accepted values are passed into the configuration unchanged, defaults
filling only absent fields. -/
theorem createRest_validation :
    (∀ o : RestOptions,
      (∃ c, createRest o = .ok c) ↔
        (claimMalformed o = false ∧
          o.userAgent.elim True (fun u => ¬jsTrim u = ""))) ∧
    (∀ (o : RestOptions) (c : RestConfig), createRest o = .ok c →
      c.authType = o.authType.getD "Bot" ∧ c.version = o.version.getD 10 ∧
      c.retries = o.retries.getD 3 ∧ c.timeout = o.timeout.getD 15000 ∧
      c.userAgent = o.userAgent) := by
  constructor
  · intro o
    rw [createRest_ok_iff, ← badUserAgent_eq_false_iff]
    unfold validateOptions claimMalformed
    split_ifs with h1 h2 h3 h4 h5 <;> simp_all
  · intro o c hc
    unfold createRest at hc
    cases hv : validateOptions o with
    | error e => rw [hv] at hc; cases hc
    | ok u =>
        rw [hv] at hc
        cases hc
        exact ⟨rfl, rfl, rfl, rfl, rfl⟩

/-- C8 witness: a fully-supplied valid options record is accepted and its
values survive into the configuration unaltered. -/
theorem createRest_validation_witness :
    (∃ c, createRest ⟨some "Bot", some 9, some 2, some 500, none⟩ = .ok c) ∧
    (∀ c, createRest ⟨some "Bot", some 9, some 2, some 500, none⟩ = .ok c →
        c.version = 9 ∧ c.retries = 2 ∧ c.timeout = 500) := by
  constructor
  · exact (createRest_validation.1 ⟨some "Bot", some 9, some 2, some 500, none⟩).mpr
      ⟨by decide, trivial⟩
  · intro c hc
    have h := createRest_validation.2 ⟨some "Bot", some 9, some 2, some 500, none⟩ c hc
    simpa using ⟨h.2.1, h.2.2.1, h.2.2.2.1⟩

/-- Helper: a purely numeric segment is not one of the major roots. -/
theorem numericSeg_not_root {n : String} (h : isNumericSeg n = true) :
    n ∉ majorRoots := by
  intro hmem
  have hm : n = "channels" ∨ n = "guilds" ∨ n = "webhooks" := by
    simpa [majorRoots] using hmem
  rcases hm with h1 | h1 | h1 <;> subst h1 <;> exact absurd h (by decide)

/-- Helper: a purely numeric segment starts with a digit. -/
theorem numericSeg_startsWithDigit {n : String} (h : isNumericSeg n = true) :
    startsWithDigit n = true := by
  unfold isNumericSeg at h
  unfold startsWithDigit
  cases hn : n.toList with
  | nil => rw [hn] at h; simp at h
  | cons c cs =>
      rw [hn] at h
      simp only [Bool.and_eq_true, List.all_eq_true] at h
      exact h.2 c (by simp)

/-- Helper: the `\d+` capture at the start of a purely numeric segment is
the whole segment. -/
theorem leadingDigits_numeric {n : String} (h : isNumericSeg n = true) :
    leadingDigits n = n := by
  unfold isNumericSeg at h
  simp only [Bool.and_eq_true, List.all_eq_true] at h
  unfold leadingDigits
  rw [List.takeWhile_eq_self_iff.mpr h.2]
  cases n
  rfl

/-- Helper: a purely numeric segment is rewritten to exactly `":id"` by the
id replacement. -/
theorem stripId_numeric {n : String} (h : isNumericSeg n = true) :
    stripId n = ":id" := by
  have hall : ∀ c ∈ n.toList, c.isDigit := by
    unfold isNumericSeg at h
    simp only [Bool.and_eq_true, List.all_eq_true] at h
    exact h.2
  unfold stripId
  rw [numericSeg_startsWithDigit h]
  simp only [if_true]
  rw [List.dropWhile_eq_nil_iff.mpr hall]
  decide

/-- Helper: replacing one digit-starting, non-root segment by another leaves
the first major-regex match unchanged, provided the replaced position is not
the match's capture: either the preceding segment is not a major root, or a
complete match already occurs earlier. -/
theorem findMajorId_nonmajor {n1 n2 : String} (h1 : isNumericSeg n1 = true)
    (h2 : isNumericSeg n2 = true) :
    ∀ (pre post : List String),
      (pre.getLast? ∈ majorRoots.map some → findMajorId pre ≠ none) →
      findMajorId (pre ++ n1 :: post) = findMajorId (pre ++ n2 :: post) := by
  intro pre
  induction pre with
  | nil =>
      intro post _
      cases post with
      | nil => rfl
      | cons p rest =>
          simp [findMajorId, numericSeg_not_root h1, numericSeg_not_root h2]
  | cons a pre ih =>
      intro post hnm
      cases pre with
      | nil =>
          have ha : a ∉ majorRoots := by
            intro hmem
            have hlast : ([a] : List String).getLast? ∈ majorRoots.map some := by
              simp [hmem]
            exact hnm hlast (by simp [findMajorId])
          simp only [List.nil_append, List.cons_append]
          simp [findMajorId, ha]
          exact ih post (by simp)
      | cons b pre2 =>
          by_cases hab : a ∈ majorRoots ∧ startsWithDigit b
          · simp [findMajorId, hab]
          · simp only [List.cons_append]
            rw [show ∀ l, findMajorId (a :: b :: l) =
                  if a ∈ majorRoots ∧ startsWithDigit b then some (leadingDigits b)
                  else findMajorId (b :: l) from fun l => rfl,
                show ∀ l, findMajorId (a :: b :: l) =
                  if a ∈ majorRoots ∧ startsWithDigit b then some (leadingDigits b)
                  else findMajorId (b :: l) from fun l => rfl]
            rw [if_neg hab, if_neg hab]
            apply ih post
            intro hlast
            have hne := hnm (by simpa using hlast)
            intro hcontra
            apply hne
            have : findMajorId (a :: b :: pre2) =
                if a ∈ majorRoots ∧ startsWithDigit b then some (leadingDigits b)
                else findMajorId (b :: pre2) := rfl
            rw [this, if_neg hab]
            exact hcontra

/-- Helper: when the segment right before `g` is the first major root with a
digit successor, the major capture is exactly the numeric segment `g`. -/
theorem findMajorId_boundary {g : String} (hg : isNumericSeg g = true) :
    ∀ (pre post : List String) (r : String), r ∈ majorRoots →
      pre.getLast? = some r → findMajorId pre = none →
      findMajorId (pre ++ g :: post) = some g := by
  intro pre
  induction pre with
  | nil => intro post r _ hl _; simp at hl
  | cons a pre ih =>
      intro post r hr hl hnone
      cases pre with
      | nil =>
          simp only [List.getLast?_singleton, Option.some.injEq] at hl
          subst hl
          simp [findMajorId, hr, numericSeg_startsWithDigit hg,
            leadingDigits_numeric hg]
      | cons b pre2 =>
          have hcond : ¬(a ∈ majorRoots ∧ startsWithDigit b) := by
            intro hc
            rw [show findMajorId (a :: b :: pre2) =
                  if a ∈ majorRoots ∧ startsWithDigit b then some (leadingDigits b)
                  else findMajorId (b :: pre2) from rfl, if_pos hc] at hnone
            cases hnone
          have hnone2 : findMajorId (b :: pre2) = none := by
            rw [show findMajorId (a :: b :: pre2) =
                  if a ∈ majorRoots ∧ startsWithDigit b then some (leadingDigits b)
                  else findMajorId (b :: pre2) from rfl, if_neg hcond] at hnone
            exact hnone
          have hl2 : (b :: pre2).getLast? = some r := by simpa using hl
          simp only [List.cons_append]
          rw [show findMajorId (a :: b :: (pre2 ++ g :: post)) =
                if a ∈ majorRoots ∧ startsWithDigit b then some (leadingDigits b)
                else findMajorId (b :: (pre2 ++ g :: post)) from rfl, if_neg hcond]
          exact ih post r hr hl2 hnone2

/-- Helper: string concatenation cancels on the left. -/
theorem strAppend_left_cancel {a b c : String} (h : a ++ b = a ++ c) : b = c := by
  obtain ⟨da⟩ := a
  obtain ⟨db⟩ := b
  obtain ⟨dc⟩ := c
  have hd : da ++ db = da ++ dc := congrArg String.data h
  have hbc : db = dc := List.append_cancel_left hd
  rw [hbc]

/-- C5: route keys collapse non-major numeric segments and isolate the major
identifier.  First part: two (verb, path) pairs that differ only in a
numeric segment whose position is not the major capture (the preceding
segment is not a major root, or a complete major match occurs earlier) get
identical keys.  Second part: two pairs that differ in the major identifier
— the first numeric segment after a channels/guilds/webhooks root — get
distinct keys. -/
theorem getRouteKey_collapse_and_scope :
    (∀ (method : String) (pre post : List String) (n1 n2 : String),
        isNumericSeg n1 = true → isNumericSeg n2 = true →
        (pre.getLast? ∈ majorRoots.map some → findMajorId pre ≠ none) →
        getRouteKey method (pre ++ n1 :: post) =
          getRouteKey method (pre ++ n2 :: post)) ∧
    (∀ (method : String) (pre post : List String) (g1 g2 r : String),
        isNumericSeg g1 = true → isNumericSeg g2 = true → g1 ≠ g2 →
        r ∈ majorRoots → pre.getLast? = some r → findMajorId pre = none →
        getRouteKey method (pre ++ g1 :: post) ≠
          getRouteKey method (pre ++ g2 :: post)) := by
  constructor
  · intro method pre post n1 n2 h1 h2 hnm
    have hmap : (pre ++ n1 :: post).map stripId = (pre ++ n2 :: post).map stripId := by
      simp [stripId_numeric h1, stripId_numeric h2]
    simp only [getRouteKey]
    rw [findMajorId_nonmajor h1 h2 pre post hnm, hmap]
  · intro method pre post g1 g2 r h1 h2 hne hr hl hn heq
    have k1 := findMajorId_boundary h1 pre post r hr hl hn
    have k2 := findMajorId_boundary h2 pre post r hr hl hn
    have hmap : (pre ++ g1 :: post).map stripId = (pre ++ g2 :: post).map stripId := by
      simp [stripId_numeric h1, stripId_numeric h2]
    simp only [getRouteKey, k1, k2, hmap, Option.getD_some] at heq
    exact hne (strAppend_left_cancel heq)

/-- C5 witness: `GET /channels/111/messages/222` and `…/333` share a key;
`GET /channels/111/…` and `GET /channels/999/…` do not. -/
theorem getRouteKey_collapse_and_scope_witness :
    isNumericSeg "222" = true ∧ isNumericSeg "999" = true ∧
    getRouteKey "GET" ["channels", "111", "messages", "222"] =
      getRouteKey "GET" ["channels", "111", "messages", "333"] ∧
    getRouteKey "GET" ["channels", "111", "messages", "222"] ≠
      getRouteKey "GET" ["channels", "999", "messages", "222"] := by
  refine ⟨by decide, by decide, ?_, ?_⟩
  · exact getRouteKey_collapse_and_scope.1 "GET" ["channels", "111", "messages"] []
      "222" "333" (by decide) (by decide) (by decide)
  · exact getRouteKey_collapse_and_scope.2 "GET" ["channels"] ["messages", "222"]
      "111" "999" "channels" (by decide) (by decide) (by decide) (by decide)
      (by decide) (by decide)

end Cordbun
